import Mathlib

/-!
# Verification of the Rayforce IPC client (`src/rayforceIpc.ts`)

A shallow embedding of the binary IPC client of the rayforce-vscode
repository: the typed binary value codec (`Serializer` / `Deserializer`),
the 16-byte frame codec (`parseHeader`), and the connection / correlator
state machine (`handleData` / `tryProcessResponse`, handshake, execute,
timeout handling).

Byte buffers are `List Nat` with each element a byte value `0 ≤ b < 256`
(Node `Buffer` invariant); readers reduce values mod 256 so the embedding
is total.  Machine integers are `Nat`/`Int` with explicit two's-complement
reinterpretation.  Fallible code (`throw new Error(...)`) is modelled with
`Except String`.  JavaScript `number`s produced by the codec are exact
integers here except for `F64`, whose IEEE-754 bit pattern is kept as its
raw 8 little-endian bytes (no claim depends on float semantics).
-/

namespace Rayforce

/-! ## Constants (from the source header of `rayforceIpc.ts`) -/

def RAYFORCE_VERSION : Nat := 1

/-- Magic constant `0xcefadefa`; named `SERDE_PREFIX` in the source. -/
def SERDE_MAGIC : Nat := 0xcefadefa

def MSG_TYPE_ASYNC : Nat := 0
def MSG_TYPE_SYNC : Nat := 1
def MSG_TYPE_RESP : Nat := 2

def TYPE_LIST : Int := 0
def TYPE_B8 : Int := 1
def TYPE_U8 : Int := 2
def TYPE_I16 : Int := 3
def TYPE_I32 : Int := 4
def TYPE_I64 : Int := 5
def TYPE_SYMBOL : Int := 6
def TYPE_DATE : Int := 7
def TYPE_TIME : Int := 8
def TYPE_TIMESTAMP : Int := 9
def TYPE_F64 : Int := 10
def TYPE_GUID : Int := 11
def TYPE_C8 : Int := 12
def TYPE_TABLE : Int := 98
def TYPE_DICT : Int := 99
def TYPE_LAMBDA : Int := 100
def TYPE_NULL : Int := 126
def TYPE_ERR : Int := 127

/-! ## Little-endian byte arithmetic -/

/-- Unsigned little-endian value of a byte list (each byte taken mod 256). -/
def readUIntLE (bytes : List Nat) : Nat :=
  bytes.foldr (fun b acc => b % 256 + 256 * acc) 0

/-- Reinterpret a `w`-bit unsigned value as two's-complement signed. -/
def toSigned (w : Nat) (u : Nat) : Int :=
  if u < 2 ^ (w - 1) then (u : Int) else (u : Int) - 2 ^ w

/-- Signed little-endian value of a `k`-byte list (`k * 8`-bit two's complement). -/
def readIntLE (bytes : List Nat) : Int :=
  toSigned (8 * bytes.length) (readUIntLE bytes)

/-- `k` little-endian bytes of `n % 2^(8k)` (Node `writeUIntLE`-family semantics
for in-range `n`). -/
def leBytes : Nat → Nat → List Nat
  | 0, _ => []
  | k + 1, n => n % 256 :: leBytes k (n / 256)

/-- Signed byte value of one byte (`Buffer.readInt8`). -/
def toInt8 (b : Nat) : Int :=
  if b % 256 < 128 then (b % 256 : Int) else (b % 256 : Int) - 256

/-- JavaScript `ToUint16`, used by `String.fromCharCode`. -/
def toUint16 (i : Int) : Nat := (i % 65536).toNat

/-! ## Deserializer cursor state

The source `Deserializer` holds an immutable buffer plus a mutable numeric
`offset`; reads advance the offset. The offset is an `Int` because
`readBuffer` with a negative length moves it backwards. -/

structure DState where
  buf : List Nat
  offset : Int
deriving Repr, DecidableEq

/-- Source getter `remaining`: `buf.length - offset`. -/
def DState.remaining (s : DState) : Int := (s.buf.length : Int) - s.offset

/-- `k` consecutive bytes starting at offset `i`, or `none` when the range is
not fully inside the buffer (Node `Buffer.read*` throws `ERR_OUT_OF_RANGE`). -/
def bytesAt (buf : List Nat) (i : Int) (k : Nat) : Option (List Nat) :=
  if 0 ≤ i ∧ i + k ≤ buf.length then some ((buf.drop i.toNat).take k) else none

/-- Node `Buffer.subarray(start, end)`: negative indices count from the end,
both indices clamp to `[0, length]`, crossed indices give the empty buffer. -/
def subarrayN (buf : List Nat) (start stop : Int) : List Nat :=
  let len : Int := buf.length
  let s := if start < 0 then max (len + start) 0 else min start len
  let e := if stop < 0 then max (len + stop) 0 else min stop len
  if e ≤ s then [] else (buf.take e.toNat).drop s.toNat

/-- Node `Buffer.subarray(start)` (one-argument form). -/
def subarrayFrom (buf : List Nat) (start : Int) : List Nat :=
  subarrayN buf start buf.length

/-- Source `readUInt8`. -/
def readUInt8E (s : DState) : Except String (Nat × DState) :=
  match bytesAt s.buf s.offset 1 with
  | some bs => .ok (readUIntLE bs, ⟨s.buf, s.offset + 1⟩)
  | none => .error "out of range"

/-- Source `readInt8`. -/
def readInt8E (s : DState) : Except String (Int × DState) :=
  match bytesAt s.buf s.offset 1 with
  | some bs => .ok (toInt8 (readUIntLE bs), ⟨s.buf, s.offset + 1⟩)
  | none => .error "out of range"

/-- Source `readInt16LE`. -/
def readInt16E (s : DState) : Except String (Int × DState) :=
  match bytesAt s.buf s.offset 2 with
  | some bs => .ok (toSigned 16 (readUIntLE bs), ⟨s.buf, s.offset + 2⟩)
  | none => .error "out of range"

/-- Source `readInt32LE`. -/
def readInt32E (s : DState) : Except String (Int × DState) :=
  match bytesAt s.buf s.offset 4 with
  | some bs => .ok (toSigned 32 (readUIntLE bs), ⟨s.buf, s.offset + 4⟩)
  | none => .error "out of range"

/-- Source `readBigInt64LE`. -/
def readInt64E (s : DState) : Except String (Int × DState) :=
  match bytesAt s.buf s.offset 8 with
  | some bs => .ok (toSigned 64 (readUIntLE bs), ⟨s.buf, s.offset + 8⟩)
  | none => .error "out of range"

/-- Source `readDoubleLE`; the 8 raw little-endian bytes of the IEEE-754
double are kept instead of interpreting them. -/
def readDoubleE (s : DState) : Except String (List Nat × DState) :=
  match bytesAt s.buf s.offset 8 with
  | some bs => .ok (bs, ⟨s.buf, s.offset + 8⟩)
  | none => .error "out of range"

/-- Source `readBuffer(len)`: `subarray` never throws, and the offset advances
by `len` even past the end of the buffer. -/
def readBufferE (s : DState) (len : Int) : List Nat × DState :=
  (subarrayN s.buf s.offset (s.offset + len), ⟨s.buf, s.offset + len⟩)

/-- Source `readNullTerminatedString`: scan for the next zero byte from the
current offset (JavaScript indexing makes negative positions behave as
misses), take the bytes up to it, and skip the terminator.  The UTF-8 text
is kept as its byte run. -/
def readNullTerminatedE (s : DState) : List Nat × DState :=
  let start : Nat := s.offset.toNat
  let tail := s.buf.drop start
  let strLen : Nat :=
    match tail.findIdx? (fun b => b = 0) with
    | some k => k
    | none => tail.length
  (tail.take strLen, ⟨s.buf, (start + strLen : Nat) + 1⟩)

/-! ## Decoded values (`RayforceValue`)

Constructors mirror the JavaScript runtime values the source produces.
Heterogeneous arrays and the typed numeric vectors are both JavaScript
arrays, hence both are `listv`.  String-valued results keep their byte
content: `strv` holds the UTF-8 run of a `C8` vector, `symv` the UTF-8 run
of a symbol (jS interns it via `Symbol.for`), `guidv` the 16 raw bytes the
source renders as lowercase hex, `charAtom` the `String.fromCharCode` code
unit. `floatv` holds the 8 little-endian bytes of an F64. -/

inductive RValue where
  | nullv : RValue
  | boolv : Bool → RValue
  | numv : Int → RValue
  | bigv : Int → RValue
  | floatv : List Nat → RValue
  | strv : List Nat → RValue
  | charAtom : Nat → RValue
  | symv : List Nat → RValue
  | guidv : List Nat → RValue
  | listv : List RValue → RValue
  | tablev : RValue → List String → List RValue → RValue
  | dictv : RValue → RValue → RValue
  | errv : Int → RValue → RValue
deriving Repr

/-- Source `getTypeName`: the type-name lookup table used by table decoding
(`[-TYPE_I16]` is present but positive `TYPE_I16` is not; unknown tags map
to `Unknown`). -/
def getTypeName (t : Int) : String :=
  if t = TYPE_NULL then "Null"
  else if t = -TYPE_B8 ∨ t = TYPE_B8 then "B8"
  else if t = -TYPE_U8 ∨ t = TYPE_U8 then "U8"
  else if t = -TYPE_I16 then "I16"
  else if t = -TYPE_I32 ∨ t = TYPE_I32 then "I32"
  else if t = -TYPE_I64 ∨ t = TYPE_I64 then "I64"
  else if t = -TYPE_F64 ∨ t = TYPE_F64 then "F64"
  else if t = -TYPE_C8 ∨ t = TYPE_C8 then "C8"
  else if t = -TYPE_SYMBOL ∨ t = TYPE_SYMBOL then "Symbol"
  else if t = -TYPE_DATE ∨ t = TYPE_DATE then "Date"
  else if t = -TYPE_TIME ∨ t = TYPE_TIME then "Time"
  else if t = -TYPE_TIMESTAMP ∨ t = TYPE_TIMESTAMP then "Timestamp"
  else if t = -TYPE_GUID ∨ t = TYPE_GUID then "GUID"
  else if t = TYPE_LIST then "List"
  else if t = TYPE_TABLE then "Table"
  else if t = TYPE_DICT then "Dict"
  else if t = TYPE_ERR then "Error"
  else if t = TYPE_LAMBDA then "Lambda"
  else "Unknown"

/-- Run a read action `n` times in sequence
(`Array.from({length: n}, () => ...)`). -/
def readCount {α : Type} : Nat → (DState → Except String (α × DState)) → DState →
    Except String (List α × DState)
  | 0, _, s => .ok ([], s)
  | n + 1, f, s => do
    let (x, s) ← f s
    let (xs, s) ← readCount n f s
    .ok (x :: xs, s)

/-- JavaScript `Array.isArray` on a decoded value. -/
def isArray : RValue → Bool
  | .listv _ => true
  | _ => false

mutual

/-- Source `Deserializer.deserialize`.  The `fuel` argument bounds the
recursion depth of the embedding (the source recurses through `this`);
every entry point decrements it, and `deserializeRun` supplies a fuel large
enough for every input on which each nested decode consumes input. -/
def deserialize : Nat → DState → Except String (RValue × DState)
  | 0, _ => .error "fuel exhausted"
  | fuel + 1, s =>
    if s.remaining < 1 then .ok (.nullv, s)
    else do
      let (t, s) ← readInt8E s
      if t = TYPE_NULL then .ok (.nullv, s)
      else if t = -TYPE_B8 then do
        let (v, s) ← readInt8E s
        .ok (.boolv (v != 0), s)
      else if t = -TYPE_U8 then do
        let (v, s) ← readUInt8E s
        .ok (.numv v, s)
      else if t = -TYPE_I16 then do
        let (v, s) ← readInt16E s
        .ok (.numv v, s)
      else if t = -TYPE_I32 ∨ t = -TYPE_DATE ∨ t = -TYPE_TIME then do
        let (v, s) ← readInt32E s
        .ok (.numv v, s)
      else if t = -TYPE_I64 ∨ t = -TYPE_TIMESTAMP then do
        let (v, s) ← readInt64E s
        .ok (.bigv v, s)
      else if t = -TYPE_F64 then do
        let (v, s) ← readDoubleE s
        .ok (.floatv v, s)
      else if t = -TYPE_SYMBOL then
        let (v, s) := readNullTerminatedE s
        .ok (.symv v, s)
      else if t = -TYPE_C8 then do
        let (v, s) ← readInt8E s
        .ok (.charAtom (toUint16 v), s)
      else if t = -TYPE_GUID then
        let (v, s) := readBufferE s 16
        .ok (.guidv v, s)
      else if t = TYPE_B8 ∨ t = TYPE_U8 ∨ t = TYPE_C8 ∨ t = TYPE_I32 ∨ t = TYPE_DATE ∨
          t = TYPE_TIME ∨ t = TYPE_I64 ∨ t = TYPE_TIMESTAMP ∨ t = TYPE_F64 ∨
          t = TYPE_SYMBOL ∨ t = TYPE_GUID ∨ t = TYPE_LIST then
        deserializeVector fuel t s
      else if t = TYPE_TABLE then deserializeTable fuel s
      else if t = TYPE_DICT then deserializeDict fuel s
      else if t = TYPE_ERR then deserializeError fuel s
      else .error ("Unsupported type: " ++ toString t)

/-- Source `Deserializer.deserializeVector`: attrs byte, 8-byte signed count,
then the elements (a negative count yields zero elements, as
`Array.from({length: len})` does). -/
def deserializeVector : Nat → Int → DState → Except String (RValue × DState)
  | 0, _, _ => .error "fuel exhausted"
  | fuel + 1, t, s => do
    let (_, s) ← readUInt8E s
    let (len, s) ← readInt64E s
    let n : Nat := len.toNat
    if t = TYPE_B8 then do
      let (vs, s) ← readCount n readInt8E s
      .ok (.listv (vs.map (fun v => .boolv (v != 0))), s)
    else if t = TYPE_U8 then
      let (bs, s) := readBufferE s len
      .ok (.listv (bs.map (fun b => .numv b)), s)
    else if t = TYPE_C8 then
      let (bs, s) := readBufferE s len
      .ok (.strv bs, s)
    else if t = TYPE_I32 ∨ t = TYPE_DATE ∨ t = TYPE_TIME then do
      let (vs, s) ← readCount n readInt32E s
      .ok (.listv (vs.map (fun v => .numv v)), s)
    else if t = TYPE_I64 ∨ t = TYPE_TIMESTAMP then do
      let (vs, s) ← readCount n readInt64E s
      .ok (.listv (vs.map (fun v => .bigv v)), s)
    else if t = TYPE_F64 then do
      let (vs, s) ← readCount n readDoubleE s
      .ok (.listv (vs.map (fun v => .floatv v)), s)
    else if t = TYPE_SYMBOL then do
      let (vs, s) ← readCount n (fun s => .ok (readNullTerminatedE s)) s
      .ok (.listv (vs.map (fun v => .symv v)), s)
    else if t = TYPE_GUID then do
      let (vs, s) ← readCount n (fun s => .ok (readBufferE s 16)) s
      .ok (.listv (vs.map (fun v => .guidv v)), s)
    else if t = TYPE_LIST then do
      let (vs, s) ← readCount n (deserialize fuel) s
      .ok (.listv vs, s)
    else .error ("Unsupported vector type: " ++ toString t)

/-- Source `Deserializer.deserializeTable`: attrs byte, key value, then the
column list with captured type names; the column-name stringification keeps
the raw key value here. -/
def deserializeTable : Nat → DState → Except String (RValue × DState)
  | 0, _ => .error "fuel exhausted"
  | fuel + 1, s => do
    let (_, s) ← readUInt8E s
    let (keys, s) ← deserialize fuel s
    let (cols, s) ← deserializeTableColumns fuel s
    .ok (.tablev keys cols.2 cols.1, s)

/-- Source `Deserializer.deserializeTableColumns`: peek the list tag (putting
the byte back when it is not a list), then decode each column with its type
name; non-array columns are wrapped in a one-element array. -/
def deserializeTableColumns : Nat → DState →
    Except String ((List RValue × List String) × DState)
  | 0, _ => .error "fuel exhausted"
  | fuel + 1, s =>
    if s.remaining < 1 then .ok (([], []), s)
    else do
      let (listType, s1) ← readInt8E s
      if listType ≠ TYPE_LIST then do
        let (val, s2) ← deserialize fuel ⟨s1.buf, s1.offset - 1⟩
        match val with
        | .listv l => .ok ((l, []), s2)
        | _ => .ok (([], []), s2)
      else do
        let (_, s2) ← readUInt8E s1
        let (len, s3) ← readInt64E s2
        let (cols, s4) ← readCount len.toNat (deserializeWithType fuel) s3
        .ok ((cols.map (fun c => if isArray c.1 then c.1 else .listv [c.1]),
              cols.map (fun c => c.2)), s4)

/-- Source `Deserializer.deserializeWithType`: the same dispatch as
`deserialize`, additionally pairing each decoded value with its
`getTypeName`. -/
def deserializeWithType : Nat → DState → Except String ((RValue × String) × DState)
  | 0, _ => .error "fuel exhausted"
  | fuel + 1, s =>
    if s.remaining < 1 then .ok ((.nullv, "Null"), s)
    else do
      let (t, s) ← readInt8E s
      let tn := getTypeName t
      if t = TYPE_NULL then .ok ((.nullv, tn), s)
      else if t = -TYPE_B8 then do
        let (v, s) ← readInt8E s
        .ok ((.boolv (v != 0), tn), s)
      else if t = -TYPE_U8 then do
        let (v, s) ← readUInt8E s
        .ok ((.numv v, tn), s)
      else if t = -TYPE_I16 then do
        let (v, s) ← readInt16E s
        .ok ((.numv v, tn), s)
      else if t = -TYPE_I32 ∨ t = -TYPE_DATE ∨ t = -TYPE_TIME then do
        let (v, s) ← readInt32E s
        .ok ((.numv v, tn), s)
      else if t = -TYPE_I64 ∨ t = -TYPE_TIMESTAMP then do
        let (v, s) ← readInt64E s
        .ok ((.bigv v, tn), s)
      else if t = -TYPE_F64 then do
        let (v, s) ← readDoubleE s
        .ok ((.floatv v, tn), s)
      else if t = -TYPE_SYMBOL then
        let (v, s) := readNullTerminatedE s
        .ok ((.symv v, tn), s)
      else if t = -TYPE_C8 then do
        let (v, s) ← readInt8E s
        .ok ((.charAtom (toUint16 v), tn), s)
      else if t = -TYPE_GUID then
        let (v, s) := readBufferE s 16
        .ok ((.guidv v, tn), s)
      else if t = TYPE_B8 ∨ t = TYPE_U8 ∨ t = TYPE_C8 ∨ t = TYPE_I32 ∨ t = TYPE_DATE ∨
          t = TYPE_TIME ∨ t = TYPE_I64 ∨ t = TYPE_TIMESTAMP ∨ t = TYPE_F64 ∨
          t = TYPE_SYMBOL ∨ t = TYPE_GUID ∨ t = TYPE_LIST then do
        let (v, s) ← deserializeVector fuel t s
        .ok ((v, tn), s)
      else if t = TYPE_TABLE then do
        let (v, s) ← deserializeTable fuel s
        .ok ((v, tn), s)
      else if t = TYPE_DICT then do
        let (v, s) ← deserializeDict fuel s
        .ok ((v, tn), s)
      else if t = TYPE_ERR then do
        let (v, s) ← deserializeError fuel s
        .ok ((v, tn), s)
      else .error ("Unsupported type: " ++ toString t)

/-- Source `Deserializer.deserializeDict`: attrs byte, keys value, values
value; no structural validation. -/
def deserializeDict : Nat → DState → Except String (RValue × DState)
  | 0, _ => .error "fuel exhausted"
  | fuel + 1, s => do
    let (_, s) ← readUInt8E s
    let (keys, s) ← deserialize fuel s
    let (values, s) ← deserialize fuel s
    .ok (.dictv keys values, s)

/-- Source `Deserializer.deserializeError`: one byte code, then a nested
value as the message (the source stringifies non-string messages; the raw
decoded value is kept here). -/
def deserializeError : Nat → DState → Except String (RValue × DState)
  | 0, _ => .error "fuel exhausted"
  | fuel + 1, s => do
    let (code, s) ← readInt8E s
    let (msg, s) ← deserialize fuel s
    .ok (.errv code msg, s)

end

/-- Decode a payload buffer from offset 0, as
`new Deserializer(payload).deserialize()` does.  The fuel
`payload.length + 1` covers every input on which each nested decode
consumes at least one byte of input. -/
def deserializeRun (payload : List Nat) : Except String (RValue × DState) :=
  deserialize (payload.length + 1) ⟨payload, 0⟩

/-! ## Serializer (`Serializer.serializeString`, `Serializer.createMessage`) -/

/-- UTF-8 encoding of one character (`Buffer.from(str, 'utf8')` semantics for
valid Unicode scalar values). -/
def utf8EncodeChar (c : Char) : List Nat :=
  let n := c.toNat
  if n < 0x80 then [n]
  else if n < 0x800 then [0xC0 + n / 64, 0x80 + n % 64]
  else if n < 0x10000 then [0xE0 + n / 4096, 0x80 + n / 64 % 64, 0x80 + n % 64]
  else [0xF0 + n / 262144, 0x80 + n / 4096 % 64, 0x80 + n / 64 % 64, 0x80 + n % 64]

/-- UTF-8 byte encoding of a string. -/
def utf8Encode (str : String) : List Nat :=
  (str.data.map utf8EncodeChar).flatten

/-- Source `Serializer.serializeString`: `type(1) | attrs(1) | length(8 LE) |
utf8 bytes`. -/
def serializeString (str : String) : List Nat :=
  let strBytes := utf8Encode str
  TYPE_C8.toNat :: 0 :: leBytes 8 strBytes.length ++ strBytes

/-- Source `Serializer.createMessage`: the 16-byte header (magic, version,
flags `0`, endian `0`, message type, payload length as 8-byte LE) followed
by the payload.  `writeUInt8` requires `msgtype < 256`; the client only
passes `0` and `1`. -/
def createMessage (payload : List Nat) (msgtype : Nat) : List Nat :=
  leBytes 4 SERDE_MAGIC ++ [RAYFORCE_VERSION, 0, 0, msgtype] ++
    leBytes 8 payload.length ++ payload

/-! ## Frame codec (`Deserializer.parseHeader`) -/

/-- Parsed IPC header; `magic` is called `prefix` in the source. -/
structure IpcHeader where
  magic : Nat
  version : Nat
  flags : Nat
  endian : Nat
  msgtype : Nat
  size : Int
deriving Repr, DecidableEq

/-- Source `Deserializer.parseHeader`: `null` on fewer than 16 bytes,
otherwise the six header fields (`readUInt32LE(0)`, four `readUInt8`,
`readBigInt64LE(8)`). -/
def parseHeader (buf : List Nat) : Option IpcHeader :=
  if buf.length < 16 then none
  else some
    { magic := readUIntLE (buf.take 4)
      version := buf.getD 4 0
      flags := buf.getD 5 0
      endian := buf.getD 6 0
      msgtype := buf.getD 7 0
      size := toSigned 64 (readUIntLE ((buf.drop 8).take 8)) }

/-! ## Connection state machine (`RayforceIpcClient`)

The mutable fields relevant to the claims are the `connected` flag, the
accumulating `responseBuffer`, and the pending-request slot
(`pendingResolve`/`pendingReject` are always set and cleared together, so
one `Bool` represents the slot).  Settlements of the pending promise and of
the surrounding calls are emitted as `ClientEvent`s in program order. -/

structure ClientState where
  connected : Bool
  responseBuffer : List Nat
  pending : Bool
deriving Repr, DecidableEq

/-- Observable settlements produced while handling inbound data or timers. -/
inductive ClientEvent where
  /-- `pendingResolve(value)` on a decoded response frame. -/
  | resolved : RValue → ClientEvent
  /-- `pendingReject(new Error('Invalid response prefix'))`. -/
  | rejectedMagic : ClientEvent
  /-- `pendingReject(err)` for a decode error with message `msg`. -/
  | rejectedDecode : String → ClientEvent
  /-- `reject(new Error('Execution timeout after Nms'))`. -/
  | rejectedTimeout : ClientEvent
deriving Repr

/-- Source `RayforceIpcClient.tryProcessResponse`, as a fueled loop: while at
least a 16-byte header is buffered, parse it, abort the connection's buffer
on a magic mismatch (rejecting the pending request if any), wait for the
full frame, then slice the frame off and decode its payload; a decoded
value resolves the pending request only for message type `2`, and a decode
error rejects the pending request.  The fuel bounds the number of loop
iterations; `tryProcessResponse` supplies enough for every input on which
each iteration consumes at least one buffered byte. -/
def tprLoop : Nat → ClientState → ClientState × List ClientEvent
  | 0, s => (s, [])
  | fuel + 1, s =>
    if s.responseBuffer.length < 16 then (s, [])
    else
      match parseHeader s.responseBuffer with
      | none => (s, [])
      | some h =>
        if h.magic ≠ SERDE_MAGIC then
          ({ s with responseBuffer := [], pending := false },
           if s.pending then [.rejectedMagic] else [])
        else
          let totalSize : Int := 16 + h.size
          if (s.responseBuffer.length : Int) < totalSize then (s, [])
          else
            let payload := subarrayN s.responseBuffer 16 totalSize
            let rest := subarrayFrom s.responseBuffer totalSize
            match deserializeRun payload with
            | .ok (v, _) =>
              if h.msgtype = MSG_TYPE_RESP ∧ s.pending then
                let (s1, evs) := tprLoop fuel { s with responseBuffer := rest, pending := false }
                (s1, .resolved v :: evs)
              else
                tprLoop fuel { s with responseBuffer := rest }
            | .error e =>
              if s.pending then
                let (s1, evs) := tprLoop fuel { s with responseBuffer := rest, pending := false }
                (s1, .rejectedDecode e :: evs)
              else
                tprLoop fuel { s with responseBuffer := rest }

/-- Source `tryProcessResponse` entry point. -/
def tryProcessResponse (s : ClientState) : ClientState × List ClientEvent :=
  tprLoop (s.responseBuffer.length + 1) s

/-- Source `RayforceIpcClient.handleData`: append the arrived bytes and
process. -/
def handleData (data : List Nat) (s : ClientState) : ClientState × List ClientEvent :=
  tryProcessResponse { s with responseBuffer := s.responseBuffer ++ data }

/-- Source `connect`: the 2-byte client hello written right after the socket
connects (`handshake[0] = RAYFORCE_VERSION; handshake[1] = 0`). -/
def handshakeBytes : List Nat := [RAYFORCE_VERSION, 0]

/-- Source `connect`'s one-shot `data` handler: accept when the first byte of
the first read equals the protocol version, become connected, and feed any
trailing bytes of the same read into the inbound frame buffer; otherwise
the `connect` promise rejects. -/
def onHandshakeData (data : List Nat) (s : ClientState) :
    Except String (ClientState × List ClientEvent) :=
  if 1 ≤ data.length ∧ data.headD 0 = RAYFORCE_VERSION then
    let s1 := { s with connected := true }
    if 1 < data.length then
      .ok (tryProcessResponse { s1 with responseBuffer := s1.responseBuffer ++ data.drop 1 })
    else
      .ok (s1, [])
  else
    .error "Invalid handshake response"

/-- Source `execute` up to its socket write: fail when not connected,
otherwise occupy the pending slot and emit the framed synchronous message
(`createMessage(serializeString(statement), MSG_TYPE_SYNC)`). -/
def executeStart (statement : String) (s : ClientState) :
    Except String (ClientState × List Nat) :=
  if s.connected then
    .ok ({ s with pending := true },
         createMessage (serializeString statement) MSG_TYPE_SYNC)
  else
    .error "Not connected to Rayforce instance"

/-- Source `execute`'s timeout callback: clear both pending callbacks and
reject the call with the timeout-specific error. -/
def executeTimeout (s : ClientState) : ClientState × ClientEvent :=
  ({ s with pending := false }, .rejectedTimeout)

/-! ## Well-formed wire frames

A test-harness-level description of a frame as the spec defines it: the
fixed magic, four single-byte fields, the payload length as 8 little-endian
bytes, then the payload.  `wfFrame` asks only that the length field fit in
a signed 64-bit integer, which every real buffer satisfies. -/

structure WireFrame where
  version : Nat
  flags : Nat
  endian : Nat
  msgtype : Nat
  payload : List Nat
deriving Repr

/-- Byte encoding of one frame. -/
def frameBytes (fr : WireFrame) : List Nat :=
  leBytes 4 SERDE_MAGIC ++ [fr.version, fr.flags, fr.endian, fr.msgtype] ++
    leBytes 8 fr.payload.length ++ fr.payload

/-- Byte encoding of a sequence of frames. -/
def framesBytes (fs : List WireFrame) : List Nat :=
  (fs.map frameBytes).flatten

/-- A frame whose payload length is representable in the signed 64-bit
length field. -/
def wfFrame (fr : WireFrame) : Prop := fr.payload.length < 2 ^ 63

/-- The net effect of processing one complete frame on the pending slot,
together with the settlement it emits (the body of the `try`/`catch` in
`tryProcessResponse`). -/
def frameEffect (fr : WireFrame) (p : Bool) : Bool × List ClientEvent :=
  match deserializeRun fr.payload with
  | .ok (v, _) =>
    if fr.msgtype = MSG_TYPE_RESP ∧ p then (false, [.resolved v]) else (p, [])
  | .error e => if p then (false, [.rejectedDecode e]) else (p, [])

/-- Folding `frameEffect` over a frame sequence: final pending slot and the
settlements in order. -/
def consume : List WireFrame → Bool → Bool × List ClientEvent
  | [], p => (p, [])
  | fr :: fs, p =>
    let (p1, e1) := frameEffect fr p
    let (p2, e2) := consume fs p1
    (p2, e1 ++ e2)

/-- A buffer on which the processing loop waits for more bytes: either too
short to hold a header, or a complete well-formed header whose declared
payload has not fully arrived. -/
def properTail (r : List Nat) : Prop :=
  r.length < 16 ∨
  ∃ (v f e m len : Nat) (q : List Nat),
    len < 2 ^ 63 ∧ q.length < len ∧
    r = [250, 222, 250, 206, v, f, e, m] ++ leBytes 8 len ++ q

/-! ## Arithmetic and list lemmas -/

theorem leBytes_length (k n : Nat) : (leBytes k n).length = k := by
  induction k generalizing n with
  | zero => rfl
  | succ k ih => simp [leBytes, ih]

theorem readUIntLE_leBytes (k n : Nat) : readUIntLE (leBytes k n) = n % 2 ^ (8 * k) := by
  induction k generalizing n with
  | zero => simp [leBytes, readUIntLE, Nat.mod_one]
  | succ k ih =>
    have h1 : (2 : Nat) ^ (8 * (k + 1)) = 256 * 2 ^ (8 * k) := by ring
    simp only [leBytes, readUIntLE, List.foldr_cons]
    have ihn := ih (n / 256)
    simp only [readUIntLE] at ihn
    rw [ihn, h1, Nat.mod_mul]
    omega

/-- Explicit byte form of a frame encoding. -/
theorem frameBytes_eq (fr : WireFrame) :
    frameBytes fr = [250, 222, 250, 206, fr.version, fr.flags, fr.endian, fr.msgtype] ++
      leBytes 8 fr.payload.length ++ fr.payload := by
  show leBytes 4 SERDE_MAGIC ++ _ ++ _ ++ _ = _
  norm_num [SERDE_MAGIC, leBytes]

theorem frameBytes_length (fr : WireFrame) :
    (frameBytes fr).length = 16 + fr.payload.length := by
  simp [frameBytes_eq, leBytes_length]
  omega

theorem framesBytes_nil : framesBytes [] = [] := rfl

theorem framesBytes_cons (fr : WireFrame) (fs : List WireFrame) :
    framesBytes (fr :: fs) = frameBytes fr ++ framesBytes fs := by
  simp [framesBytes]

theorem framesBytes_append (fs gs : List WireFrame) :
    framesBytes (fs ++ gs) = framesBytes fs ++ framesBytes gs := by
  simp [framesBytes]

theorem length_le_framesBytes (fs : List WireFrame) :
    fs.length ≤ (framesBytes fs).length := by
  induction fs with
  | nil => simp [framesBytes_nil]
  | cons fr fs ih =>
    simp only [framesBytes_cons, List.length_append, List.length_cons]
    have := frameBytes_length fr
    omega

theorem parseHeader_explicit (v f e m len : Nat) (tail : List Nat) (hlen : len < 2 ^ 63) :
    parseHeader ([250, 222, 250, 206, v, f, e, m] ++ leBytes 8 len ++ tail) =
      some { magic := SERDE_MAGIC, version := v, flags := f, endian := e,
             msgtype := m, size := (len : Int) } := by
  have hlen8 : (leBytes 8 len).length = 8 := leBytes_length 8 len
  have hL : ([250, 222, 250, 206, v, f, e, m] ++ (leBytes 8 len ++ tail)).length
      = 16 + tail.length := by
    simp [hlen8]
    omega
  have htake : (([250, 222, 250, 206, v, f, e, m] : List Nat) ++
      (leBytes 8 len ++ tail)).take 4 = [250, 222, 250, 206] := rfl
  have hdrop : (([250, 222, 250, 206, v, f, e, m] : List Nat) ++
      (leBytes 8 len ++ tail)).drop 8 = leBytes 8 len ++ tail := rfl
  have h64 : readUIntLE (leBytes 8 len) = len := by
    rw [readUIntLE_leBytes]
    exact Nat.mod_eq_of_lt (lt_of_lt_of_le hlen (by norm_num))
  have hsigned : toSigned 64 len = (len : Int) := by
    have h63 : (2 : Nat) ^ (64 - 1) = 2 ^ 63 := by norm_num
    unfold toSigned
    rw [if_pos (h63 ▸ hlen)]
  rw [List.append_assoc]
  unfold parseHeader
  rw [if_neg (by rw [hL]; omega), htake, hdrop, List.take_left' hlen8, h64, hsigned]
  norm_num [readUIntLE, SERDE_MAGIC]

/-- For in-range natural arguments, `subarray` is plain take-then-drop. -/
theorem subarrayN_nat (buf : List Nat) (s e : Nat) (he : e ≤ buf.length) :
    subarrayN buf s e = (buf.take e).drop s := by
  simp only [subarrayN]
  rw [if_neg (show ¬((s : Int) < 0) by omega), if_neg (show ¬((e : Int) < 0) by omega)]
  have h1 : min ((e : Nat) : Int) ((buf.length : Nat) : Int) = ((e : Nat) : Int) := by omega
  rw [h1]
  by_cases hcase : (s : Int) ≤ (buf.length : Int)
  · have h2 : min ((s : Nat) : Int) ((buf.length : Nat) : Int) = ((s : Nat) : Int) := by
      omega
    rw [h2]
    by_cases h3 : ((e : Nat) : Int) ≤ ((s : Nat) : Int)
    · rw [if_pos h3]
      symm
      apply List.drop_eq_nil_of_le
      rw [List.length_take]
      omega
    · rw [if_neg h3]
      simp
  · have h2 : min ((s : Nat) : Int) ((buf.length : Nat) : Int) = ((buf.length : Nat) : Int) := by
      omega
    rw [h2, if_pos (by omega)]
    symm
    apply List.drop_eq_nil_of_le
    rw [List.length_take]
    omega

theorem subarrayN_payload (A B C : List Nat) (hA : A.length = 16) :
    subarrayN (A ++ B ++ C) 16 (16 + (B.length : Int)) = B := by
  have hcast : (16 + (B.length : Int)) = ((16 + B.length : Nat) : Int) := by push_cast; ring
  have hle : 16 + B.length ≤ (A ++ B ++ C).length := by simp [hA]
  rw [hcast]
  rw [show (16 : Int) = ((16 : Nat) : Int) by norm_num]
  rw [subarrayN_nat _ _ _ hle]
  have hAB : (A ++ B).length = 16 + B.length := by simp [hA]
  rw [List.take_left' hAB, List.drop_left' hA]

theorem subarrayFrom_rest (A B C : List Nat) (hA : A.length = 16) :
    subarrayFrom (A ++ B ++ C) (16 + (B.length : Int)) = C := by
  have hcast : (16 + (B.length : Int)) = ((16 + B.length : Nat) : Int) := by push_cast; ring
  simp only [subarrayFrom]
  rw [hcast]
  rw [subarrayN_nat _ _ _ (le_refl _)]
  rw [List.take_length]
  have hAB : (A ++ B).length = 16 + B.length := by simp [hA]
  exact List.drop_left' hAB

theorem frameEffect_false (fr : WireFrame) : frameEffect fr false = (false, []) := by
  unfold frameEffect
  cases deserializeRun fr.payload with
  | ok vp =>
    obtain ⟨v, s⟩ := vp
    simp
  | error e => simp

theorem consume_nopending (fs : List WireFrame) : consume fs false = (false, []) := by
  induction fs with
  | nil => rfl
  | cons fr fs ih => simp [consume, frameEffect_false, ih]

theorem consume_append (fs gs : List WireFrame) (p : Bool) :
    consume (fs ++ gs) p =
      ((consume gs (consume fs p).1).1,
       (consume fs p).2 ++ (consume gs (consume fs p).1).2) := by
  induction fs generalizing p with
  | nil => simp [consume]
  | cons fr fs ih =>
    simp only [List.cons_append, consume, List.append_eq]
    rw [ih ((frameEffect fr p).1)]
    simp [List.append_assoc]

/-- The processing loop leaves a waiting buffer untouched and emits nothing. -/
theorem tprLoop_wait (fuel : Nat) (c p : Bool) (r : List Nat) (hr : properTail r) :
    tprLoop fuel ⟨c, r, p⟩ = (⟨c, r, p⟩, []) := by
  cases fuel with
  | zero => rfl
  | succ fuel =>
    rcases hr with hshort | ⟨v, f, e, m, len, q, hlen, hq, rfl⟩
    · unfold tprLoop
      dsimp only
      rw [if_pos hshort]
    · unfold tprLoop
      dsimp only
      have hL : ([250, 222, 250, 206, v, f, e, m] ++ leBytes 8 len ++ q).length
          = 16 + q.length := by
        simp [leBytes_length]
        omega
      rw [if_neg (by rw [hL]; omega)]
      rw [parseHeader_explicit v f e m len q hlen]
      dsimp only
      rw [if_neg (show ¬(SERDE_MAGIC ≠ SERDE_MAGIC) by simp)]
      rw [if_pos (show (([250, 222, 250, 206, v, f, e, m] ++ leBytes 8 len ++ q).length : Int)
          < 16 + (len : Int) by rw [hL]; push_cast; omega)]

/-- Processing a buffer that is a run of complete well-formed frames followed
by a waiting tail consumes exactly the frames, leaving the tail and the
folded pending slot and settlements of `consume`. -/
theorem tprLoop_run (fs : List WireFrame) :
    ∀ (r : List Nat) (p c : Bool) (fuel : Nat),
    (∀ fr ∈ fs, wfFrame fr) → properTail r → fs.length < fuel →
    tprLoop fuel ⟨c, framesBytes fs ++ r, p⟩ =
      (⟨c, r, (consume fs p).1⟩, (consume fs p).2) := by
  induction fs with
  | nil =>
    intro r p c fuel _ hr _
    rw [framesBytes_nil, List.nil_append]
    exact tprLoop_wait fuel c p r hr
  | cons fr fs ih =>
    intro r p c fuel hwf hr hfuel
    cases fuel with
    | zero => omega
    | succ fuel =>
      have hwfr : wfFrame fr := hwf fr (by simp)
      have hwfs : ∀ g ∈ fs, wfFrame g := fun g hg => hwf g (by simp [hg])
      have hfuel2 : fs.length < fuel := by simp at hfuel; omega
      set Q : List Nat := framesBytes fs ++ r with hQdef
      set A : List Nat :=
        [250, 222, 250, 206, fr.version, fr.flags, fr.endian, fr.msgtype] ++
          leBytes 8 fr.payload.length with hAdef
      have hA : A.length = 16 := by
        simp [hAdef, leBytes_length]
      have hbuf : framesBytes (fr :: fs) ++ r = A ++ fr.payload ++ Q := by
        rw [framesBytes_cons, frameBytes_eq fr]
        simp [hAdef, hQdef, List.append_assoc]
      rw [hbuf]
      unfold tprLoop
      dsimp only
      have hlenbuf : (A ++ fr.payload ++ Q).length = 16 + fr.payload.length + Q.length := by
        simp [hA]
        omega
      rw [if_neg (by rw [hlenbuf]; omega)]
      have hph : parseHeader (A ++ fr.payload ++ Q) =
          some { magic := SERDE_MAGIC, version := fr.version, flags := fr.flags,
                 endian := fr.endian, msgtype := fr.msgtype,
                 size := (fr.payload.length : Int) } := by
        rw [hAdef, List.append_assoc ([250, 222, 250, 206, fr.version, fr.flags,
          fr.endian, fr.msgtype] ++ leBytes 8 fr.payload.length) fr.payload Q]
        exact parseHeader_explicit _ _ _ _ _ _ hwfr
      rw [hph]
      dsimp only
      rw [if_neg (show ¬(SERDE_MAGIC ≠ SERDE_MAGIC) by simp)]
      rw [if_neg (show ¬(((A ++ fr.payload ++ Q).length : Int)
          < 16 + (fr.payload.length : Int)) by rw [hlenbuf]; push_cast; omega)]
      rw [subarrayN_payload A fr.payload Q hA, subarrayFrom_rest A fr.payload Q hA]
      cases hdec : deserializeRun fr.payload with
      | ok vp =>
        obtain ⟨vv, dst⟩ := vp
        dsimp only
        by_cases hresp : fr.msgtype = MSG_TYPE_RESP ∧ p
        · rw [if_pos hresp]
          rw [hQdef, ih r false c fuel hwfs hr hfuel2]
          simp [consume, frameEffect, hdec, hresp]
        · rw [if_neg hresp]
          rw [hQdef, ih r p c fuel hwfs hr hfuel2]
          simp [consume, frameEffect, hdec, hresp]
      | error err =>
        dsimp only
        by_cases hp : p
        · rw [if_pos (by simp [hp])]
          rw [hQdef, ih r false c fuel hwfs hr hfuel2]
          simp [consume, frameEffect, hdec, hp]
        · rw [if_neg (by simp [hp])]
          rw [hQdef, ih r p c fuel hwfs hr hfuel2]
          simp [consume, frameEffect, hdec, hp]

theorem tryProcessResponse_run (fs : List WireFrame) (r : List Nat) (p c : Bool)
    (hwf : ∀ fr ∈ fs, wfFrame fr) (hr : properTail r) :
    tryProcessResponse ⟨c, framesBytes fs ++ r, p⟩ =
      (⟨c, r, (consume fs p).1⟩, (consume fs p).2) := by
  unfold tryProcessResponse
  refine tprLoop_run fs r p c _ hwf hr ?_
  have h1 := length_le_framesBytes fs
  simp only [List.length_append]
  omega

/-- Any split point of a frame stream decomposes it into whole frames before
the cut, a waiting tail straddling it, and whole frames after it. -/
theorem framesBytes_take_decomp : ∀ (fs : List WireFrame) (j : Nat),
    (∀ fr ∈ fs, wfFrame fr) →
    ∃ fsA fsB r, fs = fsA ++ fsB ∧ (∀ fr ∈ fsA, wfFrame fr) ∧ (∀ fr ∈ fsB, wfFrame fr) ∧
      (framesBytes fs).take j = framesBytes fsA ++ r ∧ properTail r ∧
      r ++ (framesBytes fs).drop j = framesBytes fsB := by
  intro fs
  induction fs with
  | nil =>
    intro j _
    refine ⟨[], [], [], rfl, by simp, by simp, ?_, Or.inl (by simp), ?_⟩
    · simp [framesBytes_nil]
    · simp [framesBytes_nil]
  | cons fr fs ih =>
    intro j hwf
    have hwfr : wfFrame fr := hwf fr (by simp)
    have hwfs : ∀ g ∈ fs, wfFrame g := fun g hg => hwf g (by simp [hg])
    have hFlen := frameBytes_length fr
    by_cases hj : j < (frameBytes fr).length
    · refine ⟨[], fr :: fs, (frameBytes fr).take j, by simp, by simp, hwf, ?_, ?_, ?_⟩
      · rw [framesBytes_cons, List.take_append_eq_append_take,
          show j - (frameBytes fr).length = 0 by omega]
        simp [framesBytes_nil]
      · by_cases hj16 : j < 16
        · exact Or.inl (by rw [List.length_take]; omega)
        · refine Or.inr ⟨fr.version, fr.flags, fr.endian, fr.msgtype, fr.payload.length,
            fr.payload.take (j - 16), hwfr, ?_, ?_⟩
          · rw [List.length_take]
            omega
          · rw [frameBytes_eq fr, List.append_assoc, List.take_append_eq_append_take,
              List.take_of_length_le (by simp [leBytes_length]; omega),
              List.take_append_eq_append_take,
              List.take_of_length_le (by simp [leBytes_length]; omega)]
            have h1 : j - ([250, 222, 250, 206, fr.version, fr.flags, fr.endian,
                fr.msgtype] : List Nat).length = j - 8 := by simp
            have h2 : j - 8 - (leBytes 8 fr.payload.length).length = j - 16 := by
              rw [leBytes_length]
              omega
            rw [h1, h2, List.append_assoc]
      · rw [framesBytes_cons, List.drop_append_eq_append_drop,
          show j - (frameBytes fr).length = 0 by omega, List.drop_zero,
          ← List.append_assoc, List.take_append_drop]
    · obtain ⟨fsA, fsB, r, hfs, hwfA, hwfB, htake, hpt, hdrop⟩ :=
        ih (j - (frameBytes fr).length) hwfs
      refine ⟨fr :: fsA, fsB, r, by simp [hfs], ?_, hwfB, ?_, hpt, ?_⟩
      · intro g hg
        rcases List.mem_cons.mp hg with hg | hg
        · exact hg ▸ hwfr
        · exact hwfA g hg
      · rw [framesBytes_cons, List.take_append_eq_append_take,
          List.take_of_length_le (by omega), htake, framesBytes_cons,
          List.append_assoc]
      · rw [framesBytes_cons, List.drop_append_eq_append_drop,
          List.drop_eq_nil_of_le (by omega), List.nil_append]
        exact hdrop

/-! ## Tag recognition -/

/-- The type tags handled by `Deserializer.deserialize`'s switch; every other
leading tag falls to the `default` branch and throws. -/
def recognizedTag (t : Int) : Bool :=
  t == TYPE_NULL || t == -TYPE_B8 || t == -TYPE_U8 || t == -TYPE_I16 ||
  t == -TYPE_I32 || t == -TYPE_DATE || t == -TYPE_TIME ||
  t == -TYPE_I64 || t == -TYPE_TIMESTAMP || t == -TYPE_F64 || t == -TYPE_SYMBOL ||
  t == -TYPE_C8 || t == -TYPE_GUID ||
  t == TYPE_B8 || t == TYPE_U8 || t == TYPE_C8 || t == TYPE_I32 || t == TYPE_DATE ||
  t == TYPE_TIME || t == TYPE_I64 || t == TYPE_TIMESTAMP || t == TYPE_F64 ||
  t == TYPE_SYMBOL || t == TYPE_GUID || t == TYPE_LIST ||
  t == TYPE_TABLE || t == TYPE_DICT || t == TYPE_ERR

theorem readInt8E_cons (b : Nat) (rest : List Nat) :
    readInt8E ⟨b :: rest, 0⟩ = .ok (toInt8 b, ⟨b :: rest, 1⟩) := by
  have h1 : bytesAt (b :: rest) 0 1 = some [b] := by
    simp [bytesAt]
  have h2 : toInt8 (readUIntLE [b]) = toInt8 b := by
    simp [readUIntLE, toInt8, Nat.mod_mod_of_dvd]
  rw [readInt8E, h1]
  dsimp only
  rw [h2]
  norm_num

theorem except_bind_ok {ε α β : Type} (a : α) (f : α → Except ε β) :
    (Except.ok a >>= f : Except ε β) = f a := rfl

set_option maxHeartbeats 1000000 in
/-- An unrecognized leading tag makes `deserialize` throw immediately,
whatever follows it. -/
theorem deserialize_head_unrecognized (fuel : Nat) (b : Nat) (rest : List Nat)
    (h : recognizedTag (toInt8 b) = false) :
    deserialize (fuel + 1) ⟨b :: rest, 0⟩ =
      .error ("Unsupported type: " ++ toString (toInt8 b)) := by
  simp only [recognizedTag, TYPE_NULL, TYPE_B8, TYPE_U8, TYPE_I16, TYPE_I32, TYPE_DATE,
    TYPE_TIME, TYPE_I64, TYPE_TIMESTAMP, TYPE_F64, TYPE_SYMBOL, TYPE_C8, TYPE_GUID,
    TYPE_LIST, TYPE_TABLE, TYPE_DICT, TYPE_ERR, Bool.or_eq_false_iff,
    beq_eq_false_iff_ne, ne_eq] at h
  rw [deserialize]
  rw [if_neg (show ¬(DState.remaining ⟨b :: rest, 0⟩ < 1) by
    simp [DState.remaining])]
  rw [readInt8E_cons, except_bind_ok]
  dsimp only
  simp only [TYPE_NULL, TYPE_B8, TYPE_U8, TYPE_I16, TYPE_I32, TYPE_DATE, TYPE_TIME,
    TYPE_I64, TYPE_TIMESTAMP, TYPE_F64, TYPE_SYMBOL, TYPE_C8, TYPE_GUID, TYPE_LIST,
    TYPE_TABLE, TYPE_DICT, TYPE_ERR]
  iterate 14 rw [if_neg (by omega)]

/-! ## Claim theorems -/

/-- Claim C1 (code evaluation at the failing input): the `rayforceIpc.ts`
deserializer returns the reserved most-negative sentinel of the Date, Time
and Timestamp families as its literal numeric value, not as `Null` — for
the Date atom `[-7][00 00 00 80]`, the Time atom `[-8][00 00 00 80]`, the
Timestamp atom `[-9][00 ×7 80]`, and a Date vector element.  This
contradicts the claim (and the sibling deserializer in
`processInfoProvider.ts`, which maps these sentinels to `null` via
`dateFromI32`/`timeFromI32`/`timestampFromI64`). -/
theorem claim_C1_sentinel_eval :
    deserializeRun [249, 0, 0, 0, 128] =
      .ok (.numv (-2147483648), ⟨[249, 0, 0, 0, 128], 5⟩) ∧
    deserializeRun [248, 0, 0, 0, 128] =
      .ok (.numv (-2147483648), ⟨[248, 0, 0, 0, 128], 5⟩) ∧
    deserializeRun [247, 0, 0, 0, 0, 0, 0, 0, 128] =
      .ok (.bigv (-9223372036854775808), ⟨[247, 0, 0, 0, 0, 0, 0, 0, 128], 9⟩) ∧
    deserializeRun [7, 0, 1, 0, 0, 0, 0, 0, 0, 0, 0, 0, 0, 128] =
      .ok (.listv [.numv (-2147483648)], ⟨[7, 0, 1, 0, 0, 0, 0, 0, 0, 0, 0, 0, 0, 128], 14⟩) :=
  ⟨rfl, rfl, rfl, rfl⟩

/-- Claim C2 (counterexample): a payload with leading tag `3` (I16 vector)
and a well-formed attrs byte, element count `1` and one 2-byte element does
not decode successfully — `deserialize` throws `Unsupported type: 3`,
because positive tag `3` is missing from the vector switch. -/
theorem claim_C2_counterexample :
    deserializeRun [3, 0, 1, 0, 0, 0, 0, 0, 0, 0, 5, 0] = .error "Unsupported type: 3" :=
  rfl

/-- Claim C2 (amended): deserializing any payload whose leading type tag is
`3` aborts with the hard decode error `Unsupported type: 3`; the I16 vector
case is not handled (only the I16 atom, tag `-3`, is). -/
theorem claim_C2_amended (rest : List Nat) :
    deserializeRun (3 :: rest) = .error "Unsupported type: 3" := by
  have h := deserialize_head_unrecognized ((3 :: rest).length) 3 rest (by decide)
  rw [show ("Unsupported type: " ++ toString (toInt8 3)) = "Unsupported type: 3"
    from rfl] at h
  exact h

/-- Claim C6: serializing the statement `"1+1"` produces exactly the payload
`[12, 0, 3,0,0,0,0,0,0,0, '1','+','1']`; wrapping it for `execute` uses the
16-byte header with message type `1`; and a response payload of tag `-4`
(atom I32) followed by `02 00 00 00` deserializes to the integer `2`. -/
theorem claim_C6_concrete :
    serializeString "1+1" = [12, 0, 3, 0, 0, 0, 0, 0, 0, 0, 49, 43, 49] ∧
    createMessage (serializeString "1+1") MSG_TYPE_SYNC =
      [250, 222, 250, 206, 1, 0, 0, 1, 13, 0, 0, 0, 0, 0, 0, 0,
       12, 0, 3, 0, 0, 0, 0, 0, 0, 0, 49, 43, 49] ∧
    deserializeRun [252, 2, 0, 0, 0] = .ok (.numv 2, ⟨[252, 2, 0, 0, 0], 5⟩) :=
  ⟨rfl, rfl, rfl⟩

/-- Claim C9: a zero-length payload deserializes to `Null` without consuming
bytes and without error, and a well-formed response frame with payload
length `0` resolves the pending request with `Null` (for any header filler
bytes and connection flag). -/
theorem claim_C9_empty_payload (v f e : Nat) (c : Bool) :
    deserializeRun [] = .ok (.nullv, ⟨[], 0⟩) ∧
    tryProcessResponse ⟨c, frameBytes ⟨v, f, e, MSG_TYPE_RESP, []⟩, true⟩ =
      (⟨c, [], false⟩, [.resolved .nullv]) := by
  refine ⟨rfl, ?_⟩
  have hwf : ∀ fr ∈ [WireFrame.mk v f e MSG_TYPE_RESP []], wfFrame fr := by
    intro fr hfr
    simp at hfr
    subst hfr
    simp [wfFrame]
  have hrun := tryProcessResponse_run [⟨v, f, e, MSG_TYPE_RESP, []⟩] [] true c hwf
    (Or.inl (by simp))
  rw [show framesBytes [⟨v, f, e, MSG_TYPE_RESP, []⟩] ++ ([] : List Nat)
      = frameBytes ⟨v, f, e, MSG_TYPE_RESP, []⟩ by simp [framesBytes]] at hrun
  rw [hrun]
  have hdec : deserializeRun ([] : List Nat) = .ok (.nullv, ⟨[], 0⟩) := rfl
  simp [consume, frameEffect, hdec]

/-- Claim C4: with at least 16 buffered bytes and a magic mismatch in the
parsed header, processing rejects the pending request (when any), discards
the entire remaining inbound buffer, and a well-formed frame arriving
afterwards is consumed cleanly from the start of the fresh buffer rather
than being misread mid-header. -/
theorem claim_C4_bad_magic (s : ClientState)
    (h16 : 16 ≤ s.responseBuffer.length)
    (hbad : readUIntLE (s.responseBuffer.take 4) ≠ SERDE_MAGIC) :
    tryProcessResponse s =
      ({ s with responseBuffer := [], pending := false },
       if s.pending then [.rejectedMagic] else []) ∧
    ∀ fr : WireFrame, wfFrame fr →
      handleData (frameBytes fr) { s with responseBuffer := [], pending := false } =
        ({ s with responseBuffer := [], pending := false }, []) := by
  constructor
  · unfold tryProcessResponse
    rw [tprLoop]
    rw [if_neg (by omega)]
    rw [parseHeader, if_neg (by omega)]
    dsimp only
    rw [if_pos hbad]
  · intro fr hwfr
    unfold handleData
    have hrun := tryProcessResponse_run [fr] [] false s.connected
      (by intro g hg; simp at hg; subst hg; exact hwfr) (Or.inl (by simp))
    rw [consume_nopending] at hrun
    simp only [framesBytes, List.map_cons, List.map_nil, List.flatten,
      List.append_nil] at hrun
    show tryProcessResponse ⟨s.connected, [] ++ frameBytes fr, false⟩ = _
    rw [List.nil_append]
    exact hrun

/-- Claim C5: a payload whose leading tag is unrecognized makes
deserialization of the entire payload abort with a hard decode error; at
the client, the frame carrying it rejects the pending request, and a
well-formed frame already delimited after it in the same buffer is still
consumed normally (the loop continues past the failed frame). -/
theorem claim_C5_unrecognized_tag (b : Nat) (rest : List Nat) (fr2 : WireFrame)
    (c : Bool) (v1 f1 e1 m1 : Nat)
    (hb : recognizedTag (toInt8 b) = false)
    (hlen : (b :: rest).length < 2 ^ 63)
    (hwf2 : wfFrame fr2) :
    deserializeRun (b :: rest) = .error ("Unsupported type: " ++ toString (toInt8 b)) ∧
    tryProcessResponse ⟨c, frameBytes ⟨v1, f1, e1, m1, b :: rest⟩ ++ frameBytes fr2, true⟩ =
      (⟨c, [], false⟩,
       [.rejectedDecode ("Unsupported type: " ++ toString (toInt8 b))]) := by
  have hd : deserializeRun (b :: rest) =
      .error ("Unsupported type: " ++ toString (toInt8 b)) :=
    deserialize_head_unrecognized ((b :: rest).length) b rest hb
  refine ⟨hd, ?_⟩
  have hwf : ∀ g ∈ [WireFrame.mk v1 f1 e1 m1 (b :: rest), fr2], wfFrame g := by
    intro g hg
    simp at hg
    rcases hg with hg | hg
    · subst hg; exact hlen
    · subst hg; exact hwf2
  have hrun := tryProcessResponse_run [⟨v1, f1, e1, m1, b :: rest⟩, fr2] [] true c hwf
    (Or.inl (by simp))
  simp only [framesBytes, List.map_cons, List.map_nil, List.flatten,
    List.append_nil] at hrun
  have h1 : frameEffect ⟨v1, f1, e1, m1, b :: rest⟩ true =
      (false, [.rejectedDecode ("Unsupported type: " ++ toString (toInt8 b))]) := by
    unfold frameEffect
    rw [show WireFrame.payload ⟨v1, f1, e1, m1, b :: rest⟩ = b :: rest from rfl, hd]
    simp
  have heff : consume [⟨v1, f1, e1, m1, b :: rest⟩, fr2] true =
      (false, [.rejectedDecode ("Unsupported type: " ++ toString (toInt8 b))]) := by
    simp [consume, h1, frameEffect_false]
  rw [heff] at hrun
  exact hrun

/-- Claim C10: a complete frame that decodes successfully but arrives while
no request is pending is silently discarded — its bytes (and those of any
following frames) are removed from the buffer, no settlement is emitted,
and the pending slot stays empty. -/
theorem claim_C10_discard (fr : WireFrame) (fs : List WireFrame) (c : Bool) (v : RValue)
    (hwfr : wfFrame fr) (hwfs : ∀ g ∈ fs, wfFrame g)
    (hdec : ∃ d, deserializeRun fr.payload = .ok (v, d)) :
    tryProcessResponse ⟨c, frameBytes fr ++ framesBytes fs, false⟩ =
      (⟨c, [], false⟩, []) := by
  have hwf : ∀ g ∈ fr :: fs, wfFrame g := by
    intro g hg
    rcases List.mem_cons.mp hg with hg | hg
    · exact hg ▸ hwfr
    · exact hwfs g hg
  have hrun := tryProcessResponse_run (fr :: fs) [] false c hwf (Or.inl (by simp))
  rw [consume_nopending] at hrun
  rw [framesBytes_cons] at hrun
  rw [show (frameBytes fr ++ framesBytes fs) ++ ([] : List Nat)
      = frameBytes fr ++ framesBytes fs by simp] at hrun
  exact hrun

/-- Claim C3: feeding any byte stream of complete well-formed frames to the
inbound data handler in two chunks, split at an arbitrary offset (including
mid-header and mid-payload), puts the client in the same state and delivers
the same settlements, in the same order, as feeding it all at once. -/
theorem claim_C3_chunk_split (fs : List WireFrame) (p c : Bool) (i : Nat)
    (hwf : ∀ fr ∈ fs, wfFrame fr) :
    (handleData ((framesBytes fs).drop i)
        (handleData ((framesBytes fs).take i) ⟨c, [], p⟩).1).1 =
      (handleData (framesBytes fs) ⟨c, [], p⟩).1 ∧
    (handleData ((framesBytes fs).take i) ⟨c, [], p⟩).2 ++
        (handleData ((framesBytes fs).drop i)
          (handleData ((framesBytes fs).take i) ⟨c, [], p⟩).1).2 =
      (handleData (framesBytes fs) ⟨c, [], p⟩).2 := by
  obtain ⟨fsA, fsB, r, hfs, hwfA, hwfB, htake, hpt, hdrop⟩ :=
    framesBytes_take_decomp fs i hwf
  have hone : handleData (framesBytes fs) ⟨c, [], p⟩ =
      (⟨c, [], (consume fs p).1⟩, (consume fs p).2) := by
    unfold handleData
    show tryProcessResponse ⟨c, [] ++ framesBytes fs, p⟩ = _
    rw [List.nil_append,
      show framesBytes fs = framesBytes fs ++ [] by simp]
    exact tryProcessResponse_run fs [] p c hwf (Or.inl (by simp))
  have hfirst : handleData ((framesBytes fs).take i) ⟨c, [], p⟩ =
      (⟨c, r, (consume fsA p).1⟩, (consume fsA p).2) := by
    unfold handleData
    show tryProcessResponse ⟨c, [] ++ (framesBytes fs).take i, p⟩ = _
    rw [List.nil_append, htake]
    exact tryProcessResponse_run fsA r p c hwfA hpt
  have hsecond : handleData ((framesBytes fs).drop i) (⟨c, r, (consume fsA p).1⟩ : ClientState) =
      (⟨c, [], (consume fsB (consume fsA p).1).1⟩, (consume fsB (consume fsA p).1).2) := by
    unfold handleData
    show tryProcessResponse ⟨c, r ++ (framesBytes fs).drop i, (consume fsA p).1⟩ = _
    rw [hdrop, show framesBytes fsB = framesBytes fsB ++ [] by simp]
    exact tryProcessResponse_run fsB [] (consume fsA p).1 c hwfB (Or.inl (by simp))
  rw [hone, hfirst, hsecond, hfs, consume_append]
  exact ⟨rfl, rfl⟩

/-- Claim C3 witness: the split-feeding equivalence at a concrete two-frame
stream (a response frame carrying `126` and one carrying an I32 atom) split
in mid-payload of the first frame. -/
theorem claim_C3_witness :
    (∀ fr ∈ [WireFrame.mk 1 0 0 2 [126], WireFrame.mk 1 0 0 2 [252, 2, 0, 0, 0]],
      wfFrame fr) ∧
    (handleData ((framesBytes [WireFrame.mk 1 0 0 2 [126],
          WireFrame.mk 1 0 0 2 [252, 2, 0, 0, 0]]).drop 9)
        (handleData ((framesBytes [WireFrame.mk 1 0 0 2 [126],
          WireFrame.mk 1 0 0 2 [252, 2, 0, 0, 0]]).take 9) ⟨true, [], true⟩).1).1 =
      (handleData (framesBytes [WireFrame.mk 1 0 0 2 [126],
        WireFrame.mk 1 0 0 2 [252, 2, 0, 0, 0]]) ⟨true, [], true⟩).1 := by
  constructor
  · intro fr hfr
    simp [wfFrame] at hfr ⊢
    rcases hfr with h | h <;> simp [h]
  · exact (claim_C3_chunk_split [WireFrame.mk 1 0 0 2 [126],
      WireFrame.mk 1 0 0 2 [252, 2, 0, 0, 0]] true true 9
      (by intro fr hfr
          simp [wfFrame] at hfr ⊢
          rcases hfr with h | h <;> simp [h])).1

/-- Claim C7: when an `execute` deadline fires, the call rejects with the
timeout-specific error and the pending slot is cleared; a late response
frame arriving afterwards resolves nothing; and a subsequent `execute` on
the same still-connected client succeeds, occupies the slot, and its own
response frame resolves with the decoded value. -/
theorem claim_C7_timeout (s : ClientState) (stmt : String) (fr fr2 : WireFrame)
    (v2 : RValue)
    (hconn : s.connected = true) (hbuf : s.responseBuffer = [])
    (hwf : wfFrame fr) (hm : fr.msgtype = MSG_TYPE_RESP)
    (hwf2 : wfFrame fr2) (hm2 : fr2.msgtype = MSG_TYPE_RESP)
    (hdec2 : ∃ d, deserializeRun fr2.payload = .ok (v2, d)) :
    (executeTimeout s).1.pending = false ∧
    (executeTimeout s).2 = .rejectedTimeout ∧
    handleData (frameBytes fr) (executeTimeout s).1 = (⟨true, [], false⟩, []) ∧
    executeStart stmt ⟨true, [], false⟩ =
      .ok (⟨true, [], true⟩, createMessage (serializeString stmt) MSG_TYPE_SYNC) ∧
    handleData (frameBytes fr2) ⟨true, [], true⟩ = (⟨true, [], false⟩, [.resolved v2]) := by
  obtain ⟨sc, sb, sp⟩ := s
  replace hconn : sc = true := hconn
  replace hbuf : sb = [] := hbuf
  subst hconn
  subst hbuf
  refine ⟨rfl, rfl, ?_, rfl, ?_⟩
  · unfold handleData executeTimeout
    have hrun := tryProcessResponse_run [fr] [] false true
      (by intro g hg; simp at hg; subst hg; exact hwf) (Or.inl (by simp))
    rw [consume_nopending] at hrun
    simp only [framesBytes, List.map_cons, List.map_nil, List.flatten,
      List.append_nil] at hrun
    show tryProcessResponse ⟨true, [] ++ frameBytes fr, false⟩ = _
    rw [List.nil_append]
    exact hrun
  · obtain ⟨d2, hd2⟩ := hdec2
    unfold handleData
    have hrun := tryProcessResponse_run [fr2] [] true true
      (by intro g hg; simp at hg; subst hg; exact hwf2) (Or.inl (by simp))
    simp only [framesBytes, List.map_cons, List.map_nil, List.flatten,
      List.append_nil] at hrun
    have heff : consume [fr2] true = (false, [.resolved v2]) := by
      simp [consume, frameEffect, hd2, hm2]
    rw [heff] at hrun
    show tryProcessResponse ⟨true, [] ++ frameBytes fr2, true⟩ = _
    rw [List.nil_append]
    exact hrun

/-- Whether an `Except` computation succeeded. -/
def exceptOk {ε α : Type} : Except ε α → Bool
  | .ok _ => true
  | .error _ => false

/-- Claim C8: `connect` writes exactly the 2-byte hello
`[protocolVersion, 0]`; the first inbound read is accepted iff its first
byte equals the protocol version; and on acceptance any trailing bytes of
the same read are fed to the inbound frame buffer for immediate
reassembly (a read with no trailing bytes just completes the connect). -/
theorem claim_C8_handshake :
    handshakeBytes = [RAYFORCE_VERSION, 0] ∧
    (∀ (d : List Nat) (s : ClientState), d ≠ [] →
      (exceptOk (onHandshakeData d s) = true ↔ d.headD 0 = RAYFORCE_VERSION)) ∧
    (∀ (s : ClientState) (rest : List Nat), rest ≠ [] →
      onHandshakeData (RAYFORCE_VERSION :: rest) s =
        .ok (handleData rest { s with connected := true })) ∧
    (∀ s : ClientState, onHandshakeData [RAYFORCE_VERSION] s =
        .ok ({ s with connected := true }, [])) := by
  refine ⟨rfl, ?_, ?_, ?_⟩
  · intro d s hd
    have hlen : 1 ≤ d.length := List.length_pos.mpr hd
    constructor
    · intro hok
      by_contra hne
      have herr : onHandshakeData d s = .error "Invalid handshake response" := by
        unfold onHandshakeData
        rw [if_neg (by intro hcontra; exact hne hcontra.2)]
      rw [herr] at hok
      exact absurd hok (by simp [exceptOk])
    · intro hh
      unfold onHandshakeData
      rw [if_pos ⟨hlen, hh⟩]
      by_cases h2 : 1 < d.length
      · rw [if_pos h2]
        rfl
      · rw [if_neg h2]
        rfl
  · intro s rest hrest
    have hlen : 1 ≤ rest.length := List.length_pos.mpr hrest
    unfold onHandshakeData
    rw [if_pos ⟨by simp, rfl⟩]
    rw [if_pos (by simp; omega)]
    rfl
  · intro s
    unfold onHandshakeData
    rw [if_pos ⟨by simp, rfl⟩]
    rw [if_neg (by simp)]

/-! ## Witnesses -/

/-- Claim C4's theorem applied at a 16-byte all-zero buffer (magic `0`)
with a pending request, followed by a well-formed `Null` response frame. -/
theorem claim_C4_witness :
    tryProcessResponse ⟨true, List.replicate 16 0, true⟩ =
      (⟨true, [], false⟩, [.rejectedMagic]) ∧
    handleData (frameBytes ⟨1, 0, 0, 2, [126]⟩) ⟨true, [], false⟩ =
      (⟨true, [], false⟩, []) := by
  have h := claim_C4_bad_magic ⟨true, List.replicate 16 0, true⟩ (by decide) (by decide)
  exact ⟨h.1, h.2 ⟨1, 0, 0, 2, [126]⟩ (by norm_num [wfFrame])⟩

/-- Claim C5's theorem applied at tag `100` (Lambda, not handled by the
switch) followed by a well-formed `Null` response frame. -/
theorem claim_C5_witness :
    deserializeRun [100] = .error "Unsupported type: 100" ∧
    tryProcessResponse
        ⟨true, frameBytes ⟨1, 0, 0, 2, [100]⟩ ++ frameBytes ⟨1, 0, 0, 2, [126]⟩, true⟩ =
      (⟨true, [], false⟩, [.rejectedDecode "Unsupported type: 100"]) := by
  have h := claim_C5_unrecognized_tag 100 [] ⟨1, 0, 0, 2, [126]⟩ true 1 0 0 2
    (by decide) (by decide) (by norm_num [wfFrame])
  exact h

/-- Claim C7's theorem applied at a concrete timed-out request followed by a
fresh `execute` whose response frame carries the I32 atom `2`. -/
theorem claim_C7_witness :
    (executeTimeout ⟨true, [], true⟩).1.pending = false ∧
    (executeTimeout ⟨true, [], true⟩).2 = .rejectedTimeout ∧
    handleData (frameBytes ⟨1, 0, 0, 2, [126]⟩) (executeTimeout ⟨true, [], true⟩).1 =
      (⟨true, [], false⟩, []) ∧
    executeStart "1+1" ⟨true, [], false⟩ =
      .ok (⟨true, [], true⟩, createMessage (serializeString "1+1") MSG_TYPE_SYNC) ∧
    handleData (frameBytes ⟨1, 0, 0, 2, [252, 2, 0, 0, 0]⟩) ⟨true, [], true⟩ =
      (⟨true, [], false⟩, [.resolved (.numv 2)]) :=
  claim_C7_timeout ⟨true, [], true⟩ "1+1" ⟨1, 0, 0, 2, [126]⟩
    ⟨1, 0, 0, 2, [252, 2, 0, 0, 0]⟩ (.numv 2) rfl rfl
    (by norm_num [wfFrame]) rfl (by norm_num [wfFrame]) rfl
    ⟨⟨[252, 2, 0, 0, 0], 5⟩, rfl⟩

/-- Claim C8's theorem applied at a concrete pipelined handshake read and at
a rejected read. -/
theorem claim_C8_witness :
    (exceptOk (onHandshakeData [2, 0] ⟨false, [], false⟩) = true ↔
      ([2, 0] : List Nat).headD 0 = RAYFORCE_VERSION) ∧
    onHandshakeData [1, 9] ⟨false, [], false⟩ =
      .ok (handleData [9] ⟨true, [], false⟩) := by
  constructor
  · exact claim_C8_handshake.2.1 [2, 0] ⟨false, [], false⟩ (by decide)
  · exact claim_C8_handshake.2.2.1 ⟨false, [], false⟩ [9] (by decide)

/-- Claim C10's theorem applied at a concrete decoded `Null` response frame
arriving with the pending slot empty. -/
theorem claim_C10_witness :
    tryProcessResponse ⟨true, frameBytes ⟨1, 0, 0, 2, [126]⟩ ++ framesBytes [], false⟩ =
      (⟨true, [], false⟩, []) :=
  claim_C10_discard ⟨1, 0, 0, 2, [126]⟩ [] true .nullv (by norm_num [wfFrame])
    (by simp) ⟨⟨[126], 1⟩, rfl⟩

end Rayforce
